import Mathlib

/-!
Verification of the `meta-duolingo` media-transformation pipeline
(`src/pipeline.py`) against its natural-language specification.

The repository itself contains only the pipeline definition and the CLI
driver; the stage operators (`merge_2`, `locs`, `rename_column`,
`add_column`) and the external adapters come from the `malevich` library,
whose code is not part of the repository.  Those operators are therefore
modelled from the specification (each such definition is marked
`Modelled from the spec:`), while everything that is in `src/pipeline.py`
— the pipeline wiring, the credential loading, and the CLI main script —
is translated directly from the source.
-/

namespace Duolingo

/-- A scalar cell value.  The pipeline only ever moves strings
(file names, class names, generated text, language codes). -/
abbrev Val := String

/-- A Collection: a named-column tabular dataset.  `cols` is the ordered
list of column names; each row is a list of values aligned with `cols`. -/
structure Collection where
  cols : List String
  rows : List (List Val)
  deriving Repr, DecidableEq

/-- Well-formedness of a Collection: column names are distinct and every
row has exactly one value per declared column. -/
def Collection.WF (C : Collection) : Prop :=
  C.cols.Nodup ∧ ∀ r ∈ C.rows, r.length = C.cols.length

/-- The list of values a Collection carries under a given column name
(looked up by the first occurrence of the name). -/
def colValues (C : Collection) (name : String) : List Val :=
  C.rows.map (fun r => r.getD (C.cols.indexOf name) "")

/-- Modelled from the spec: `malevich.utility.rename_column` (not in
`src/`) — "produces a new Collection identical to the input except one
column is renamed per a `{old_name: new_name}` mapping in configuration;
fails if `old_name` is absent." -/
def rename_column (C : Collection) (oldName newName : String) :
    Option Collection :=
  if oldName ∈ C.cols then
    some { cols := C.cols.map (fun c => if c = oldName then newName else c),
           rows := C.rows }
  else none

/-- Modelled from the spec: `malevich.utility.locs` (not in `src/`) —
"produces a new Collection containing only the configured subset of
columns, in the configured order; fails if any requested column is
absent." -/
def locs (C : Collection) (sel : List String) : Option Collection :=
  if sel.all (fun c => C.cols.contains c) then
    some { cols := sel,
           rows := C.rows.map
             (fun r => sel.map (fun c => r.getD (C.cols.indexOf c) "")) }
  else none

/-- Modelled from the spec: a negative insertion position counts from the
end of the column list (the pipeline inserts `from_language` at position
`-1`, i.e. appends it), a non-negative one counts from the front. -/
def effIdx (n : Nat) (pos : Int) : Int :=
  if pos < 0 then (n : Int) + 1 + pos else pos

/-- Modelled from the spec: `malevich.utility.add_column` (not in `src/`)
— "produces a new Collection with one additional column inserted at a
configured position, with a constant value broadcast to every row; fails
if the position is out of the valid insertion range or the column name
already exists." -/
def add_column (C : Collection) (name : String) (v : Val) (pos : Int) :
    Option Collection :=
  if name ∈ C.cols ∨ effIdx C.cols.length pos < 0 ∨
      (C.cols.length : Int) < effIdx C.cols.length pos then none
  else
    some { cols := C.cols.insertIdx (effIdx C.cols.length pos).toNat name,
           rows := C.rows.map
             (fun r => r.insertIdx (effIdx C.cols.length pos).toNat v) }

/-- Modelled from the spec: `malevich.utility.merge_2` (not in `src/`) —
"cross join — every row of the left Collection is paired with every row
of the right Collection, and the result's columns are the union of both
sides' columns"; "column-name collisions between the two sides are a
configuration error (undefined/rejected, not silently overwritten)". -/
def merge_2 (l r : Collection) (how : String) : Option Collection :=
  if how = "cross" then
    if l.cols.any (fun c => r.cols.contains c) then none
    else
      some { cols := l.cols ++ r.cols,
             rows := l.rows.flatMap (fun lr => r.rows.map (fun rr => lr ++ rr)) }
  else none

/-- A process environment: `os.getenv` returns the variable's value, or
`None` when the variable is unset. -/
abbrev Env := String → Option String

/-- Module-level `storage_endpoint = os.getenv("S3_ENDPOINT")`. -/
def storage_endpoint (env : Env) : Option String := env "S3_ENDPOINT"

/-- Module-level `storage_access_key = os.getenv("S3_ACCESS_KEY")`. -/
def storage_access_key (env : Env) : Option String := env "S3_ACCESS_KEY"

/-- Module-level `storage_secret_key = os.getenv("S3_SECRET_KEY")`. -/
def storage_secret_key (env : Env) : Option String := env "S3_SECRET_KEY"

/-- Module-level `storage_bucket = os.getenv("S3_BUCKET")`. -/
def storage_bucket (env : Env) : Option String := env "S3_BUCKET"

/-- Module-level `openai_key = os.getenv("OPENAI_KEY")`. -/
def openai_key (env : Env) : Option String := env "OPENAI_KEY"

/-- The `storage_config` dictionary built inside `duolingo`; each field is
the (possibly absent) environment value, stored as-is. -/
structure StorageConfig where
  aws_access_key_id : Option String
  aws_secret_access_key : Option String
  bucket_name : Option String
  endpoint_url : Option String
  deriving Repr, DecidableEq

/-- The dictionary `storage_config` with keys `aws_access_key_id`,
`aws_secret_access_key`, `bucket_name`, `endpoint_url`,
built in `duolingo` in `src/pipeline.py`: the credential values are
placed in the configuration without any presence check. -/
def storage_config (env : Env) : StorageConfig :=
  { aws_access_key_id := storage_access_key env,
    aws_secret_access_key := storage_secret_key env,
    bucket_name := storage_bucket env,
    endpoint_url := storage_endpoint env }

/-- The configuration passed to `process_langchain_request` in
`duolingo`: the keys `prompt_template` (the prompt) and `api_key`
(the possibly absent OpenAI key). -/
structure LangchainConfig where
  prompt_template : String
  api_key : Option String
  deriving Repr, DecidableEq

/-- The `files` collection of `duolingo`: a single row holding the file
name both as local filename and as S3 key. -/
def filesCollection (file : String) : Collection :=
  { cols := ["filename", "s3key"], rows := [[file, file]] }

/-- The `language` collection of `duolingo`: a single `to_language`
column with one row holding the target-language code. -/
def languageCollection (target_language : String) : Collection :=
  { cols := ["to_language"], rows := [[target_language]] }

/-- Modelled from the spec: the adapter `process_langchain_request`
(external `malevich.langchain`, not in `src/`) "adds a generated-text
column" (named `text` in the spec's end-to-end scenario); the generated
content itself is external and abstracted as `gen`.  The configuration —
including a possibly absent `api_key` — is carried but never validated at
construction time. -/
def process_langchain_request (C : Collection) (cfg : LangchainConfig)
    (gen : List Val → Val) : Collection :=
  { cols := C.cols ++ ["text"], rows := C.rows.map (fun r => r ++ [gen r]) }

/-- Modelled from the spec: the adapter `translate_texts` (external
`malevich.google`, not in `src/`) "adds a translated-text column", named
`translation` since the pipeline selects that name; the translated
content is external and abstracted as `tr`. -/
def translate_texts (C : Collection) (tr : List Val → Val) : Collection :=
  { cols := C.cols ++ ["translation"], rows := C.rows.map (fun r => r ++ [tr r]) }

/-- The dataflow of `duolingo` from the detection output onward,
translated from `src/pipeline.py`: select `cls_names`, rename it to
`objects`, generate descriptions, add `from_language = "en"` at position
`-1`, cross-merge with the `language` collection, translate, select
`translation`, and cross-merge with `language` again.  The detection
output (one row per detected object, external) is the parameter
`detectOut`.  Returns the two merge results (`for_translation` and the
final merged collection), or `none` if any stage fails. -/
def duolingoDataflow (detectOut : Collection) (gen tr : List Val → Val)
    (prompt : String) (apiKey : Option String) (target_language : String) :
    Option (Collection × Collection) :=
  (locs detectOut ["cls_names"]).bind fun selected =>
  (rename_column selected "cls_names" "objects").bind fun objects =>
  let descriptions := process_langchain_request objects ⟨prompt, apiKey⟩ gen
  (add_column descriptions "from_language" "en" (-1)).bind fun withFrom =>
  (merge_2 withFrom (languageCollection target_language) "cross").bind
    fun for_translation =>
  let translated := translate_texts for_translation tr
  (locs translated ["translation"]).bind fun transSel =>
  (merge_2 transSel (languageCollection target_language) "cross").map
    fun final => (for_translation, final)

/-- Python `s[:-1]`: the string without its final character. -/
def pyDropLast (s : String) : String := s.toList.dropLast.asString

/-- The `classes` mapping built in `__main__`:
`{str(i): k[:-1] for i, k in enumerate(open(args.classes).readlines())}`,
given the raw lines of the classes file. -/
def classesOf (lines : List String) : List (String × String) :=
  lines.enum.map (fun p => (toString p.1, pyDropLast p.2))

/-- Python `os.path.basename`: the part of the path after the last `/`. -/
def basename (p : String) : String :=
  (p.data.foldl (fun acc c => if c = '/' then [] else acc ++ [c]) []).asString

/-- One top-level statement of the `__main__` block of
`src/pipeline.py`, with the data it acts on. -/
inductive MainStep
  | uploadFile (localPath : String) (bucket : Option String) (key : String)
  | buildTask (file : String) (classes : List (String × String))
      (promptText lang : String)
  | runTask (withLogs : Bool) (profileMode : String)
  | stopTask
  deriving Repr, DecidableEq

/-- The statement sequence of the `__main__` block of `src/pipeline.py`
(after argument parsing and file reading):
`client.upload_file(args.file, storage_bucket, base_name)`,
`task = duolingo(base_name, classes, prompt, args.lang)`,
`task.run(with_logs=True, profile_mode="all")`, `task.stop()`. -/
def mainScript (env : Env) (filePath : String) (classesLines : List String)
    (promptText lang : String) : List MainStep :=
  [ .uploadFile filePath (storage_bucket env) (basename filePath),
    .buildTask (basename filePath) (classesOf classesLines) promptText lang,
    .runTask true "all",
    .stopTask ]

/-- Python sequential statement execution: statements run in order; a
raising statement is reached but aborts everything after it.  The
`__main__` block has no `try`/`finally`, so an exception propagates past
the remaining statements. -/
def executedSteps (raises : MainStep → Bool) : List MainStep → List MainStep
  | [] => []
  | s :: rest => if raises s then [s] else s :: executedSteps raises rest

/-- Modelled from the spec: a stage invocation as the Graph Builder
(external `malevich` `@pipeline` machinery, not in `src/`) sees it — the
Collection names it consumes, the names it produces, the configuration
keys present at the call site, the keys its schema requires, and whether
invoking it performs adapter I/O. -/
structure Invocation where
  inputs : List String
  outputs : List String
  configKeys : List String
  requiredKeys : List String
  isAdapter : Bool
  deriving Repr, DecidableEq

/-- Modelled from the spec: an invocation is valid with respect to the
set of already-defined Collection names when every referenced input is
defined and every required option is present in its configuration. -/
def invocationOk (defined : List String) (inv : Invocation) : Bool :=
  inv.inputs.all (fun n => defined.contains n) &&
    inv.requiredKeys.all (fun k => inv.configKeys.contains k)

/-- Modelled from the spec: the Graph Builder walks the declarative call
sequence in order, tracking the defined Collection names, and aborts on
the first invocation that references an undefined Collection or lacks a
required option ("build-time error that aborts before any stage
executes"). -/
def buildGraph (defined : List String) :
    List Invocation → Except String (List Invocation)
  | [] => .ok []
  | inv :: rest =>
    if invocationOk defined inv then
      (buildGraph (defined ++ inv.outputs) rest).map (inv :: ·)
    else .error "undefined collection reference or missing required option"

/-- Modelled from the spec: a run builds the graph first and executes it
only if building succeeded; each executed adapter node contributes its
I/O.  On a build-time error nothing executes, so the I/O trace is
empty. -/
def runIOTrace (roots : List String) (invs : List Invocation) :
    List Invocation :=
  match buildGraph roots invs with
  | .error _ => []
  | .ok nodes => nodes.filter (·.isAdapter)

/-- The Collection names defined before position `k` of the call
sequence: the root collections plus the outputs of the first `k`
invocations. -/
def definedBefore (roots : List String) (invs : List Invocation) (k : Nat) :
    List String :=
  roots ++ (invs.take k).flatMap (·.outputs)

end Duolingo

namespace Duolingo

/-- C1: the cross-join merge of two Collections has `|left| × |right|`
rows and its column set is the union of the two sides' column sets. -/
theorem merge_2_cross_rows_and_columns (l r out : Collection)
    (h : merge_2 l r "cross" = some out) :
    out.rows.length = l.rows.length * r.rows.length ∧
      out.cols.toFinset = l.cols.toFinset ∪ r.cols.toFinset := by
  unfold merge_2 at h
  rw [if_pos rfl] at h
  by_cases hc : (l.cols.any fun c => r.cols.contains c) = true
  · rw [if_pos hc] at h
    exact absurd h (by simp)
  · rw [if_neg hc] at h
    have h' := Option.some.inj h
    subst h'
    refine ⟨?_, ?_⟩
    · simp only [List.length_flatMap, Function.comp_def, List.length_map]
      rw [List.map_const']
      simp [List.sum_replicate, smul_eq_mul]
    · simp [List.toFinset_append]

/-- Witness for C1 at a concrete pair of Collections. -/
theorem merge_2_cross_rows_and_columns_witness :
    (merge_2 ⟨["a"], [["1"], ["2"]]⟩ ⟨["b"], [["x"], ["y"], ["z"]]⟩ "cross").isSome ∧
      ∀ out, merge_2 ⟨["a"], [["1"], ["2"]]⟩ ⟨["b"], [["x"], ["y"], ["z"]]⟩ "cross"
          = some out →
        out.rows.length = 2 * 3 ∧
          out.cols.toFinset = (["a"] : List String).toFinset ∪ (["b"] : List String).toFinset := by
  refine ⟨by decide, fun out h => ?_⟩
  have := merge_2_cross_rows_and_columns ⟨["a"], [["1"], ["2"]]⟩
    ⟨["b"], [["x"], ["y"], ["z"]]⟩ out h
  simpa using this

/-- C7: a cross-join merge whose two inputs share a column name is
rejected (returns no Collection) rather than overwriting either side. -/
theorem merge_2_cross_collision_rejected (l r : Collection) (c : String)
    (hl : c ∈ l.cols) (hr : c ∈ r.cols) :
    merge_2 l r "cross" = none := by
  unfold merge_2
  have hany : (l.cols.any fun c => r.cols.contains c) = true := by
    refine List.any_eq_true.mpr ⟨c, hl, ?_⟩
    simpa using hr
  rw [if_pos rfl, if_pos hany]

/-- Witness for C7: merging two Collections that both have column "x". -/
theorem merge_2_cross_collision_rejected_witness :
    merge_2 ⟨["x"], [["1"]]⟩ ⟨["x", "y"], [["2", "3"]]⟩ "cross" = none :=
  merge_2_cross_collision_rejected ⟨["x"], [["1"]]⟩ ⟨["x", "y"], [["2", "3"]]⟩
    "x" (by decide) (by decide)

/-- Looking up a mapped list at the index of a member evaluates the
function at that member (first occurrence). -/
lemma getD_map_indexOf (f : String → Val) (sel : List String) (c : String)
    (h : c ∈ sel) :
    (sel.map f).getD (sel.indexOf c) "" = f c := by
  rw [List.getD_eq_getElem?_getD, List.getElem?_map,
    List.getElem?_eq_getElem (List.indexOf_lt_length.mpr h)]
  simp [List.getElem_indexOf]

/-- After renaming `o` to a fresh name `n`, the new name sits exactly
where the old one was. -/
lemma indexOf_map_rename (cols : List String) (o n : String)
    (hn : n ∉ cols) (ho : o ∈ cols) :
    (cols.map fun c => if c = o then n else c).indexOf n = cols.indexOf o := by
  induction cols with
  | nil => cases ho
  | cons c cs ih =>
    by_cases hco : c = o
    · subst hco
      simp [List.indexOf_cons_self]
    · have hcn : c ≠ n := fun h => hn (h ▸ List.mem_cons_self c cs)
      have ho' : o ∈ cs := by
        rcases List.mem_cons.mp ho with h | h
        · exact absurd h.symm hco
        · exact h
      have hn' : n ∉ cs := fun h => hn (List.mem_cons_of_mem _ h)
      rw [List.map_cons, if_neg hco, List.indexOf_cons_ne _ hcn,
        List.indexOf_cons_ne _ hco, ih hn' ho']

/-- Renaming `o` to `n` does not move any column other than `o` and `n`. -/
lemma indexOf_map_rename_other (cols : List String) (o n d : String)
    (hdo : d ≠ o) (hdn : d ≠ n) :
    (cols.map fun c => if c = o then n else c).indexOf d = cols.indexOf d := by
  induction cols with
  | nil => simp
  | cons c cs ih =>
    by_cases hco : c = o
    · subst hco
      rw [List.map_cons, if_pos rfl, List.indexOf_cons_ne _ (Ne.symm hdn),
        List.indexOf_cons_ne _ (Ne.symm hdo), ih]
    · rw [List.map_cons, if_neg hco]
      by_cases hcd : c = d
      · subst hcd
        rw [List.indexOf_cons_self, List.indexOf_cons_self]
      · rw [List.indexOf_cons_ne _ hcd, List.indexOf_cons_ne _ hcd, ih]

/-- C4: renaming an existing column `oldName` to a fresh `newName` keeps
the rows (hence the row count) and the number of columns, carries the
values of the old column over to the new name (as lists, hence as sets),
and leaves every other column's values unchanged; if `oldName` is not a
column of the input, `rename_column` fails. -/
theorem rename_column_spec (C : Collection) (oldName newName : String) :
    (oldName ∈ C.cols → newName ∉ C.cols →
      ∃ D, rename_column C oldName newName = some D ∧
        D.rows = C.rows ∧
        D.rows.length = C.rows.length ∧
        colValues D newName = colValues C oldName ∧
        (colValues D newName).toFinset = (colValues C oldName).toFinset ∧
        (∀ c, c ≠ oldName → c ≠ newName → colValues D c = colValues C c) ∧
        D.cols.length = C.cols.length) ∧
    (oldName ∉ C.cols → rename_column C oldName newName = none) := by
  constructor
  · intro ho hn
    refine ⟨{ cols := C.cols.map (fun c => if c = oldName then newName else c),
              rows := C.rows },
      by rw [rename_column, if_pos ho], rfl, rfl, ?_, ?_, ?_, by simp⟩
    · simp only [colValues]
      rw [indexOf_map_rename C.cols oldName newName hn ho]
    · simp only [colValues]
      rw [indexOf_map_rename C.cols oldName newName hn ho]
    · intro c hc1 hc2
      simp only [colValues]
      rw [indexOf_map_rename_other C.cols oldName newName c hc1 hc2]
  · intro ho
    rw [rename_column, if_neg ho]

/-- Witness for C4 on a concrete two-column, two-row Collection. -/
theorem rename_column_spec_witness :
    ∃ D, rename_column ⟨["a", "b"], [["1", "2"], ["3", "4"]]⟩ "a" "z" = some D ∧
      D.rows = [["1", "2"], ["3", "4"]] ∧
      D.rows.length = ([["1", "2"], ["3", "4"]] : List (List Val)).length ∧
      colValues D "z" = colValues ⟨["a", "b"], [["1", "2"], ["3", "4"]]⟩ "a" ∧
      (colValues D "z").toFinset
        = (colValues ⟨["a", "b"], [["1", "2"], ["3", "4"]]⟩ "a").toFinset ∧
      (∀ c, c ≠ "a" → c ≠ "z" →
        colValues D c = colValues ⟨["a", "b"], [["1", "2"], ["3", "4"]]⟩ c) ∧
      D.cols.length = (["a", "b"] : List String).length :=
  (rename_column_spec ⟨["a", "b"], [["1", "2"], ["3", "4"]]⟩ "a" "z").1
    (by decide) (by decide)

/-- C5: projecting onto a subset of present columns yields exactly those
columns in the configured order with the same row count, and `locs` is
idempotent: projecting the result onto the same subset returns it
unchanged; if any requested column is absent, `locs` fails. -/
theorem locs_spec (C : Collection) (sel : List String) :
    ((∀ c ∈ sel, c ∈ C.cols) →
      ∃ D, locs C sel = some D ∧ D.cols = sel ∧
        D.rows.length = C.rows.length ∧ locs D sel = some D) ∧
    ((∃ c ∈ sel, c ∉ C.cols) → locs C sel = none) := by
  constructor
  · intro hsub
    have hall : sel.all (fun c => C.cols.contains c) = true := by
      rw [List.all_eq_true]
      intro c hc
      simpa using hsub c hc
    refine ⟨{ cols := sel,
              rows := C.rows.map
                (fun r => sel.map (fun c => r.getD (C.cols.indexOf c) "")) },
      by rw [locs, if_pos hall], rfl, by simp, ?_⟩
    have hall2 : sel.all (fun c => sel.contains c) = true := by
      rw [List.all_eq_true]
      intro c hc
      simpa using hc
    rw [locs, if_pos hall2]
    congr 2
    simp only [List.map_map]
    refine List.map_congr_left ?_
    intro r _
    simp only [Function.comp_apply]
    refine List.map_congr_left ?_
    intro c hc
    exact getD_map_indexOf (fun c => r.getD (C.cols.indexOf c) "") sel c hc
  · intro ⟨c, hc, habs⟩
    rw [locs]
    have : sel.all (fun c => C.cols.contains c) = false := by
      rw [List.all_eq_false]
      exact ⟨c, hc, by simpa using habs⟩
    rw [this]
    simp

/-- Witness for C5: projecting a three-column Collection onto two of its
columns in swapped order. -/
theorem locs_spec_witness :
    ∃ D, locs ⟨["a", "b", "c"], [["1", "2", "3"]]⟩ ["c", "a"] = some D ∧
      D.cols = ["c", "a"] ∧
      D.rows.length = ([["1", "2", "3"]] : List (List Val)).length ∧
      locs D ["c", "a"] = some D :=
  (locs_spec ⟨["a", "b", "c"], [["1", "2", "3"]]⟩ ["c", "a"]).1 (by decide)

/-- A fresh name inserted at index `k` is found exactly at index `k`. -/
lemma indexOf_insertIdx_self (cols : List String) (name : String) (k : Nat)
    (hn : name ∉ cols) (hk : k ≤ cols.length) :
    (cols.insertIdx k name).indexOf name = k := by
  induction cols generalizing k with
  | nil =>
    have hk0 : k = 0 := Nat.le_zero.mp hk
    subst hk0
    rw [List.insertIdx_zero, List.indexOf_cons_self]
  | cons c cs ih =>
    cases k with
    | zero => rw [List.insertIdx_zero, List.indexOf_cons_self]
    | succ k' =>
      have hcn : c ≠ name := fun h => hn (h ▸ List.mem_cons_self c cs)
      rw [List.insertIdx_succ_cons, List.indexOf_cons_ne _ hcn,
        ih k' (fun h => hn (List.mem_cons_of_mem _ h)) (Nat.succ_le_succ_iff.mp hk)]

/-- Reading a row at the index where a value was just inserted gives
back that value. -/
lemma getD_insertIdx_self (r : List Val) (v : Val) (k : Nat)
    (hk : k ≤ r.length) :
    (r.insertIdx k v).getD k "" = v := by
  have hlen : k < (r.insertIdx k v).length := by
    rw [List.length_insertIdx k r hk]
    omega
  rw [List.getD_eq_getElem?_getD, List.getElem?_eq_getElem hlen]
  simp [List.getElem_insertIdx_self r v k hk]

/-- C6: adding a fresh column of a constant value at a valid position
(counting from the end when negative, as the pipeline's `position: -1`
does) yields one more column, located at the effective position, whose
value in every row is the constant, with the row count unchanged;
`add_column` fails when the name already exists or the effective position
is outside the insertion range `0 .. |cols|`. -/
theorem add_column_spec (C : Collection) (name : String) (v : Val) (pos : Int) :
    (name ∉ C.cols →
      0 ≤ effIdx C.cols.length pos →
      effIdx C.cols.length pos ≤ (C.cols.length : Int) →
      (∀ r ∈ C.rows, r.length = C.cols.length) →
      ∃ D, add_column C name v pos = some D ∧
        D.cols.length = C.cols.length + 1 ∧
        D.rows.length = C.rows.length ∧
        D.cols.indexOf name = (effIdx C.cols.length pos).toNat ∧
        colValues D name = List.replicate C.rows.length v ∧
        (pos = -1 → D.cols = C.cols ++ [name])) ∧
    ((name ∈ C.cols ∨ effIdx C.cols.length pos < 0 ∨
        (C.cols.length : Int) < effIdx C.cols.length pos) →
      add_column C name v pos = none) := by
  constructor
  · intro hname h0 h2 hwf
    have hguard : ¬ (name ∈ C.cols ∨ effIdx C.cols.length pos < 0 ∨
        (C.cols.length : Int) < effIdx C.cols.length pos) := by
      push_neg
      exact ⟨hname, h0, h2⟩
    have hk : (effIdx C.cols.length pos).toNat ≤ C.cols.length :=
      Int.toNat_le.mpr h2
    refine ⟨_, by rw [add_column, if_neg hguard], ?_, by simp, ?_, ?_, ?_⟩
    · exact List.length_insertIdx _ _ hk
    · exact indexOf_insertIdx_self C.cols name _ hname hk
    · simp only [colValues, List.map_map]
      rw [indexOf_insertIdx_self C.cols name _ hname hk, ← List.map_const']
      refine List.map_congr_left ?_
      intro r hr
      exact getD_insertIdx_self r v _ (by rw [hwf r hr]; exact hk)
    · intro hpos
      subst hpos
      have heff : (effIdx C.cols.length (-1)).toNat = C.cols.length := by
        simp [effIdx]
      show C.cols.insertIdx (effIdx C.cols.length (-1)).toNat name
          = C.cols ++ [name]
      rw [heff, List.insertIdx_length_self]
  · intro hbad
    rw [add_column, if_pos hbad]

/-- Witness for C6: appending `from_language = "en"` at position `-1`,
as the pipeline configures it. -/
theorem add_column_spec_witness :
    ∃ D, add_column ⟨["objects", "text"], [["cat", "A cat."]]⟩
          "from_language" "en" (-1) = some D ∧
      D.cols.length = (["objects", "text"] : List String).length + 1 ∧
      D.rows.length = ([["cat", "A cat."]] : List (List Val)).length ∧
      D.cols.indexOf "from_language"
        = (effIdx (["objects", "text"] : List String).length (-1)).toNat ∧
      colValues D "from_language"
        = List.replicate ([["cat", "A cat."]] : List (List Val)).length "en" ∧
      ((-1 : Int) = -1 → D.cols = ["objects", "text"] ++ ["from_language"]) :=
  (add_column_spec ⟨["objects", "text"], [["cat", "A cat."]]⟩
      "from_language" "en" (-1)).1 (by decide) (by decide) (by decide) (by decide)

/-- C9: in this pipeline the right side of both cross-joins (the
`language` collection) has the single column `to_language`, disjoint from
the left sides' columns (`objects`/`text`/`from_language` for the first
merge, `translation` for the second, the latter thanks to the preceding
`locs`), so for any detection output that carries a `cls_names` column
the whole dataflow succeeds — the cross-join collision branch is never
taken. -/
theorem cross_join_collision_unreachable (detectOut : Collection)
    (gen tr : List Val → Val) (prompt : String) (apiKey : Option String)
    (target_language : String) (h : "cls_names" ∈ detectOut.cols) :
    (languageCollection target_language).cols = ["to_language"] ∧
    (∀ c ∈ (["objects", "text", "from_language"] : List String),
      c ∉ (languageCollection target_language).cols) ∧
    (∀ c ∈ (["translation"] : List String),
      c ∉ (languageCollection target_language).cols) ∧
    ∃ ft fin,
      duolingoDataflow detectOut gen tr prompt apiKey target_language
          = some (ft, fin) ∧
      ft.cols = ["objects", "text", "from_language"]
          ++ (languageCollection target_language).cols ∧
      fin.cols = ["translation"] ++ (languageCollection target_language).cols := by
  refine ⟨rfl, by simp [languageCollection], by simp [languageCollection], ?_⟩
  have hcond : ((["cls_names"] : List String).all
      fun c => detectOut.cols.contains c) = true := by
    simp only [List.all_cons, List.all_nil, Bool.and_true]
    simpa using h
  have h1 : locs detectOut ["cls_names"]
      = some ⟨["cls_names"],
          detectOut.rows.map
            (fun r => [r.getD (detectOut.cols.indexOf "cls_names") ""])⟩ := by
    rw [locs, if_pos hcond]
    exact rfl
  have hmain : duolingoDataflow detectOut gen tr prompt apiKey target_language
      = some
        (⟨["objects", "text", "from_language", "to_language"],
          (((detectOut.rows.map
              (fun r => [r.getD (detectOut.cols.indexOf "cls_names") ""])).map
                (fun r => r ++ [gen r])).map
                  (fun r => r.insertIdx 2 "en")).flatMap
            (fun lr => [lr ++ [target_language]])⟩,
         ⟨["translation", "to_language"],
          ((((((detectOut.rows.map
              (fun r => [r.getD (detectOut.cols.indexOf "cls_names") ""])).map
                (fun r => r ++ [gen r])).map
                  (fun r => r.insertIdx 2 "en")).flatMap
            (fun lr => [lr ++ [target_language]])).map
              (fun r => r ++ [tr r])).map
                (fun r => [r.getD 4 ""])).flatMap
            (fun lr => [lr ++ [target_language]])⟩) := by
    unfold duolingoDataflow
    rw [h1, Option.some_bind]
    rfl
  exact ⟨_, _, hmain, rfl, rfl⟩

/-- Witness for C9 at the spec's end-to-end scenario: a one-row
detection output `{cls_names: "cat"}` and target language `"es"`. -/
theorem cross_join_collision_unreachable_witness :
    (languageCollection "es").cols = ["to_language"] ∧
    (∀ c ∈ (["objects", "text", "from_language"] : List String),
      c ∉ (languageCollection "es").cols) ∧
    (∀ c ∈ (["translation"] : List String),
      c ∉ (languageCollection "es").cols) ∧
    ∃ ft fin,
      duolingoDataflow ⟨["cls_names"], [["cat"]]⟩ (fun _ => "A cat.")
          (fun _ => "Un gato.") "Describe the {objects}" (some "sk") "es"
          = some (ft, fin) ∧
      ft.cols = ["objects", "text", "from_language"]
          ++ (languageCollection "es").cols ∧
      fin.cols = ["translation"] ++ (languageCollection "es").cols :=
  cross_join_collision_unreachable ⟨["cls_names"], [["cat"]]⟩
    (fun _ => "A cat.") (fun _ => "Un gato.") "Describe the {objects}"
    (some "sk") "es" (by decide)

/-- C10: the storage and OpenAI credentials are pure reads of the
environment — each configuration field is exactly the (possibly absent)
environment value — and when every variable is unset all fields are
`none`, the OpenAI key is `none`, and the pipeline is still constructed
without any error (the dataflow succeeds; nothing validates the
credentials at startup or at construction). -/
theorem credentials_env_unchecked (env : Env) :
    (storage_config env).aws_access_key_id = env "S3_ACCESS_KEY" ∧
    (storage_config env).aws_secret_access_key = env "S3_SECRET_KEY" ∧
    (storage_config env).bucket_name = env "S3_BUCKET" ∧
    (storage_config env).endpoint_url = env "S3_ENDPOINT" ∧
    openai_key env = env "OPENAI_KEY" ∧
    ((∀ v, env v = none) →
      storage_config env = ⟨none, none, none, none⟩ ∧
      openai_key env = none ∧
      (duolingoDataflow ⟨["cls_names"], [["cat"]]⟩ (fun _ => "d")
          (fun _ => "t") "p" (openai_key env) "es").isSome = true) := by
  refine ⟨rfl, rfl, rfl, rfl, rfl, ?_⟩
  intro hnone
  refine ⟨?_, hnone "OPENAI_KEY", ?_⟩
  · simp [storage_config, storage_access_key, storage_secret_key,
      storage_bucket, storage_endpoint, hnone]
  · rw [show openai_key env = none from hnone "OPENAI_KEY"]
    decide

/-- Witness for C10: the fully-unset environment. -/
theorem credentials_env_unchecked_witness :
    storage_config (fun _ => none) = ⟨none, none, none, none⟩ ∧
    openai_key (fun _ => none) = none ∧
    (duolingoDataflow ⟨["cls_names"], [["cat"]]⟩ (fun _ => "d")
        (fun _ => "t") "p" (openai_key (fun _ => none)) "es").isSome = true :=
  (credentials_env_unchecked (fun _ => none)).2.2.2.2.2 (fun _ => rfl)

/-- C2 counterexample: when `task.run` raises (a stage fails), the
`__main__` block of `src/pipeline.py` never reaches `task.stop` — there
is no `try`/`finally` around `task.run`, so the teardown is not executed
on the failure path. -/
theorem stop_skipped_on_run_failure :
    MainStep.stopTask ∉
      executedSteps
        (fun s => match s with | MainStep.runTask _ _ => true | _ => false)
        (mainScript (fun _ => none) "cat.jpg" ["cat\n"] "Describe" "es") := by
  decide

/-- C2 (amended): `task.stop` executes exactly when every statement
before it — the upload, the task construction, and `task.run` —
completes without raising; on a stage failure during `task.run` (or any
earlier failure) the teardown is skipped. -/
theorem stop_executed_iff_no_prior_failure (env : Env) (filePath : String)
    (classesLines : List String) (promptText lang : String)
    (raises : MainStep → Bool) :
    MainStep.stopTask ∈
        executedSteps raises
          (mainScript env filePath classesLines promptText lang) ↔
      (raises (.uploadFile filePath (storage_bucket env) (basename filePath))
          = false ∧
       raises (.buildTask (basename filePath) (classesOf classesLines)
          promptText lang) = false ∧
       raises (.runTask true "all") = false) := by
  cases h1 : raises (MainStep.uploadFile filePath (storage_bucket env)
      (basename filePath)) <;>
  cases h2 : raises (MainStep.buildTask (basename filePath)
      (classesOf classesLines) promptText lang) <;>
  cases h3 : raises (MainStep.runTask true "all") <;>
    simp [mainScript, executedSteps, h1, h2, h3]

/-- Witness for the amended C2: with no statement raising, `task.stop`
is reached. -/
theorem stop_executed_iff_no_prior_failure_witness :
    MainStep.stopTask ∈
      executedSteps (fun _ => false)
        (mainScript (fun _ => none) "cat.jpg" ["cat\n"] "Describe" "es") :=
  (stop_executed_iff_no_prior_failure (fun _ => none) "cat.jpg" ["cat\n"]
      "Describe" "es" (fun _ => false)).mpr ⟨rfl, rfl, rfl⟩

/-- Stripping the final character of a newline-terminated line recovers
the label. -/
lemma pyDropLast_append_newline (s : String) : pyDropLast (s ++ "\n") = s := by
  apply String.ext
  show ((s ++ "\n").toList.dropLast.asString).data = s.data
  have h1 : (s ++ "\n").toList = s.data ++ ['\n'] := by
    show (s ++ "\n").data = s.data ++ "\n".data
    rw [String.data_append]
  rw [h1]
  show (s.data ++ ['\n']).dropLast = s.data
  simp

/-- On a newline-terminated classes file, the `__main__` comprehension
maps the decimal index of each line to exactly that line's label. -/
lemma classesOf_newline (labels : List String) :
    classesOf (labels.map (fun s => s ++ "\n"))
      = labels.enum.map (fun p => (toString p.1, p.2)) := by
  unfold classesOf
  rw [List.enum_map, List.map_map]
  refine List.map_congr_left ?_
  intro p _
  simp only [Function.comp_apply, Prod.map, id_eq]
  rw [pyDropLast_append_newline]

/-- C3: for a newline-terminated classes file, the `__main__` block first
uploads the local file to the bucket under its base name, later builds
the pipeline task with that same remote key, the index-to-label class
mapping (one label per line), the prompt text and the language code, and
the run is invoked with `with_logs = True` and `profile_mode = "all"`. -/
theorem cli_invocation_spec (env : Env) (filePath promptText lang : String)
    (labels : List String) :
    ∃ i j : Nat, i < j ∧
      (mainScript env filePath (labels.map (fun s => s ++ "\n"))
          promptText lang)[i]?
        = some (MainStep.uploadFile filePath (storage_bucket env)
            (basename filePath)) ∧
      (mainScript env filePath (labels.map (fun s => s ++ "\n"))
          promptText lang)[j]?
        = some (MainStep.buildTask (basename filePath)
            (labels.enum.map (fun p => (toString p.1, p.2))) promptText lang) ∧
      MainStep.runTask true "all"
        ∈ mainScript env filePath (labels.map (fun s => s ++ "\n"))
            promptText lang := by
  refine ⟨0, 1, Nat.zero_lt_one, rfl, ?_, by simp [mainScript]⟩
  show some (MainStep.buildTask (basename filePath)
      (classesOf (labels.map (fun s => s ++ "\n"))) promptText lang) = _
  rw [classesOf_newline]

/-- The Collection names defined before invocation `k + 1` of
`inv :: rest` are the ones defined before invocation `k` of `rest` once
`inv`'s outputs join the roots. -/
lemma definedBefore_cons (roots : List String) (inv : Invocation)
    (rest : List Invocation) (k : Nat) :
    definedBefore roots (inv :: rest) (k + 1)
      = definedBefore (roots ++ inv.outputs) rest k := by
  simp [definedBefore, List.take_succ_cons, List.flatMap_cons,
    List.append_assoc]

/-- C8: if any invocation of the call sequence references a Collection
name not defined before it or lacks a required configuration option,
graph construction fails, and the run performs no adapter I/O at all
(build-time failure precedes every stage side effect). -/
theorem build_error_no_side_effects (roots : List String)
    (invs : List Invocation) (k : Nat) (hk : k < invs.length)
    (hbad : invocationOk (definedBefore roots invs k) (invs.get ⟨k, hk⟩)
      = false) :
    (∃ e, buildGraph roots invs = Except.error e) ∧
      runIOTrace roots invs = [] := by
  have herr : ∃ e, buildGraph roots invs = Except.error e := by
    induction invs generalizing roots k with
    | nil => exact absurd hk (Nat.not_lt_zero k)
    | cons inv rest ih =>
      by_cases hok : invocationOk roots inv = true
      · cases k with
        | zero =>
          rw [show definedBefore roots (inv :: rest) 0 = roots by
              simp [definedBefore]] at hbad
          rw [show (inv :: rest).get ⟨0, hk⟩ = inv from rfl] at hbad
          rw [hok] at hbad
          cases hbad
        | succ k' =>
          rw [definedBefore_cons] at hbad
          rw [show (inv :: rest).get ⟨k' + 1, hk⟩
              = rest.get ⟨k', Nat.lt_of_succ_lt_succ hk⟩ from rfl] at hbad
          obtain ⟨e, he⟩ := ih (roots ++ inv.outputs) k'
            (Nat.lt_of_succ_lt_succ hk) hbad
          refine ⟨e, ?_⟩
          rw [buildGraph, if_pos hok, he]
          rfl
      · exact ⟨_, by rw [buildGraph, if_neg hok]⟩
  obtain ⟨e, he⟩ := herr
  refine ⟨⟨e, he⟩, ?_⟩
  rw [runIOTrace, he]

/-- Witness for C8: a single invocation consuming the undefined
Collection `"images"` with no roots. -/
theorem build_error_no_side_effects_witness :
    (∃ e, buildGraph [] [⟨["images"], ["paths"], [], [], true⟩]
        = Except.error e) ∧
      runIOTrace [] [⟨["images"], ["paths"], [], [], true⟩] = [] :=
  build_error_no_side_effects [] [⟨["images"], ["paths"], [], [], true⟩]
    0 (by decide) (by decide)

end Duolingo
